import Mathlib

/-!
Verification development for the solar-rail spacing tool
(`structural.py`, `wind_load.py` and the governing-direction comparison in
`app.py`).  The Python floats are modelled as exact rationals; numpy arrays
become lists or index functions; a raised exception becomes an `Except`
error value.
-/

namespace RailSpacing

/-! ## structural.py -/

/-- `calculate_Mn(breaking_load_kN, test_span_m, safety_factor)`. -/
def calculate_Mn (breaking_load_kN test_span_m safety_factor : ℚ) : ℚ :=
  ((breaking_load_kN * test_span_m) / 4) / safety_factor

/-- `E = 1.0` in `solve_continuous_beam_fem`. -/
def Ebeam : ℚ := 1

/-- `I = 1.0` in `solve_continuous_beam_fem`. -/
def Ibeam : ℚ := 1

/-- `k11 = 12*E*I/L**3`. -/
def k11 (L : ℚ) : ℚ := 12 * Ebeam * Ibeam / L ^ 3

/-- `k12 = 6*E*I/L**2`. -/
def k12 (L : ℚ) : ℚ := 6 * Ebeam * Ibeam / L ^ 2

/-- `k22 = 4*E*I/L`. -/
def k22 (L : ℚ) : ℚ := 4 * Ebeam * Ibeam / L

/-- `fem_moment = w_load * L**2 / 12`. -/
def femMoment (L w : ℚ) : ℚ := w * L ^ 2 / 12

/-- `fem_shear = w_load * L / 2`. -/
def femShear (L w : ℚ) : ℚ := w * L / 2

/-- The 4x4 local stiffness matrix `k_local` of one beam element, as an
index function (entries outside `{0,1,2,3} x {0,1,2,3}` are `0`). -/
def kLoc (L : ℚ) : ℕ → ℕ → ℚ
  | 0, 0 => k11 L | 0, 1 => k12 L | 0, 2 => -k11 L | 0, 3 => k12 L
  | 1, 0 => k12 L | 1, 1 => k22 L | 1, 2 => -k12 L | 1, 3 => k22 L / 2
  | 2, 0 => -k11 L | 2, 1 => -k12 L | 2, 2 => k11 L | 2, 3 => -k12 L
  | 3, 0 => k12 L | 3, 1 => k22 L / 2 | 3, 2 => -k12 L | 3, 3 => k22 L
  | _, _ => 0

/-- The local fixed-end force vector
`f_local = [fem_shear, fem_moment, fem_shear, -fem_moment]`. -/
def fLoc (L w : ℚ) : ℕ → ℚ
  | 0 => femShear L w
  | 1 => femMoment L w
  | 2 => femShear L w
  | 3 => -femMoment L w
  | _ => 0

/-- Contribution of element `e` (with dof indices `2e..2e+3`) to the global
stiffness matrix entry `(r, c)`. -/
def elemK (L : ℚ) (e r c : ℕ) : ℚ :=
  if 2 * e ≤ r ∧ r ≤ 2 * e + 3 ∧ 2 * e ≤ c ∧ c ≤ 2 * e + 3 then
    kLoc L (r - 2 * e) (c - 2 * e)
  else 0

/-- Contribution of element `e` to the assembled fixed-end force vector
entry `r`. -/
def elemF (L w : ℚ) (e r : ℕ) : ℚ :=
  if 2 * e ≤ r ∧ r ≤ 2 * e + 3 then fLoc L w (r - 2 * e) else 0

/-- The assembled global stiffness matrix `K_global` of `n` equal spans,
entry `(r, c)` (dofs are numbered `0..2*(n+1)-1`). -/
def Kglobal (n : ℕ) (L : ℚ) (r c : ℕ) : ℚ :=
  ∑ e ∈ Finset.range n, elemK L e r c

/-- The assembled global fixed-end action vector (`F_global`, also rebuilt
as `F_fixed_global` in the reaction computation — both loops are
identical). -/
def Ffix (n : ℕ) (L w : ℚ) (r : ℕ) : ℚ :=
  ∑ e ∈ Finset.range n, elemF L w e r

/-- `K_reduced`: the global stiffness matrix restricted to the free dofs,
which are the rotations (odd indices `1, 3, ..., 2n+1`). -/
def Kred (n : ℕ) (L : ℚ) : Matrix (Fin (n + 1)) (Fin (n + 1)) ℚ :=
  Matrix.of fun j k => Kglobal n L (2 * (j : ℕ) + 1) (2 * (k : ℕ) + 1)

/-- `F_effective = -F_global[free_dofs]`. -/
def Feff (n : ℕ) (L w : ℚ) : Fin (n + 1) → ℚ :=
  fun j => -Ffix n L w (2 * (j : ℕ) + 1)

/-- Solve `A x = b` by Cramer's rule, `x = det⁻¹ • (adjugate A *ᵥ b)`.
Over a field this is exactly `A⁻¹ *ᵥ b`; when `det A ≠ 0` it is the
unique solution of the system, which is what `np.linalg.solve`
returns. -/
def solveVec {m : ℕ} (A : Matrix (Fin m) (Fin m) ℚ) (b : Fin m → ℚ) :
    Fin m → ℚ :=
  (A.det)⁻¹ • A.adjugate.mulVec b

/-- `displacements = np.linalg.solve(K_reduced, F_effective)`: the unique
solution of the reduced system when it is nonsingular (`np.linalg.solve`
raises `LinAlgError` exactly when the matrix is singular; the value below
is junk in that case and is never exposed by the solver, which errors
out instead). -/
def theta (n : ℕ) (L w : ℚ) : Fin (n + 1) → ℚ :=
  solveVec (Kred n L) (Feff n L w)

/-- `u_full`: zeros at the fixed vertical dofs (even indices), solved
rotations at the free dofs (odd indices). -/
def uFull (n : ℕ) (L w : ℚ) (r : ℕ) : ℚ :=
  if h : r % 2 = 1 ∧ r / 2 < n + 1 then theta n L w ⟨r / 2, h.2⟩ else 0

/-- `f_int = K_local @ u_ele + f_local` for element `e`, row `r`. -/
def fInt (n : ℕ) (L w : ℚ) (e r : ℕ) : ℚ :=
  (∑ c ∈ Finset.range 4, kLoc L r c * uFull n L w (2 * e + c)) + fLoc L w r

/-- `V_start = f_int[0]` of element `e`. -/
def vStart (n : ℕ) (L w : ℚ) (e : ℕ) : ℚ := fInt n L w e 0

/-- `M_start = f_int[1]` of element `e`. -/
def mStart (n : ℕ) (L w : ℚ) (e : ℕ) : ℚ := fInt n L w e 1

/-- Sample point `k` of `np.linspace(0, L, 50)`, i.e. `k*L/49`. -/
def xloc (L : ℚ) (k : ℕ) : ℚ := (k : ℚ) * L / 49

/-- `v_vals = V_start - w_load * x_local` at sample `k` of element `e`. -/
def vVal (n : ℕ) (L w : ℚ) (e k : ℕ) : ℚ :=
  vStart n L w e - w * xloc L k

/-- `m_vals = -M_start + V_start*x - w*x**2/2` at sample `k` of element
`e`. -/
def mVal (n : ℕ) (L w : ℚ) (e k : ℕ) : ℚ :=
  -mStart n L w e + vStart n L w e * xloc L k - w * xloc L k ^ 2 / 2

/-- `np.max(np.abs(m_vals))` over the 50 samples of element `e` (the
values are absolute values, hence nonnegative, so folding from `0`
coincides with numpy's max over the nonempty array). -/
def spanMax (n : ℕ) (L w : ℚ) (e : ℕ) : ℚ :=
  (Finset.range 50).fold max 0 (fun k => |mVal n L w e k|)

/-- `max_moment`: starts at `0.0` and takes
`max(max_moment, np.max(np.abs(m_vals)))` for each span in turn. -/
def maxMoment (n : ℕ) (L w : ℚ) : ℚ :=
  (Finset.range n).fold max 0 (spanMax n L w)

/-- `reactions[i] = (K_global @ u_full + F_fixed_global)[2*i]`. -/
def reaction (n : ℕ) (L w : ℚ) (i : ℕ) : ℚ :=
  (∑ c ∈ Finset.range (2 * (n + 1)), Kglobal n L (2 * i) c * uFull n L w c) +
    Ffix n L w (2 * i)

/-- The `reactions` array (one entry per node `0..n`). -/
def reactionsList (n : ℕ) (L w : ℚ) : List ℚ :=
  (List.range (n + 1)).map (reaction n L w)

/-- The concatenated `x` array: `x_local + i*L` for each span. -/
def xsList (n : ℕ) (L : ℚ) : List ℚ :=
  ((List.range n).map fun e =>
    (List.range 50).map fun k => xloc L k + (e : ℚ) * L).flatten

/-- The concatenated `shear` array. -/
def shearList (n : ℕ) (L w : ℚ) : List ℚ :=
  ((List.range n).map fun e => (List.range 50).map (vVal n L w e)).flatten

/-- The concatenated `moment` array. -/
def momentList (n : ℕ) (L w : ℚ) : List ℚ :=
  ((List.range n).map fun e => (List.range 50).map (mVal n L w e)).flatten

/-- The result dict returned by `solve_continuous_beam_fem`. -/
structure BeamResult where
  max_moment : ℚ
  x : List ℚ
  shear : List ℚ
  moment : List ℚ
  reactions : List ℚ
  deriving DecidableEq

/-- The result record for given inputs (always well-defined as data; the
solver only returns it when the linear solve succeeds). -/
def beamResult (n : ℕ) (L w : ℚ) : BeamResult :=
  ⟨maxMoment n L w, xsList n L, shearList n L w, momentList n L w,
    reactionsList n L w⟩

/-- How a call of `solve_continuous_beam_fem` can fail: `zeroDiv` models
Python's `ZeroDivisionError` (raised computing `12*E*I/L**3` when
`L == 0`), `singular` models `numpy.linalg.LinAlgError` from
`np.linalg.solve`.  The function performs no input validation, so these
are the only failure modes. -/
inductive SolveErr where
  | zeroDiv
  | singular
  deriving DecidableEq

/-- `solve_continuous_beam_fem(num_spans, span_length, w_load)`. -/
def solve_continuous_beam_fem (num_spans : ℕ) (span_length w_load : ℚ) :
    Except SolveErr BeamResult :=
  if span_length = 0 then .error .zeroDiv
  else if (Kred num_spans span_length).det = 0 then .error .singular
  else .ok (beamResult num_spans span_length w_load)

/-- `np.max(np.abs(arr))` on a list, as used on the shear array by the
caller (`app.py`), folding from `0`. -/
def listMaxAbs (l : List ℚ) : ℚ :=
  l.foldl (fun a v => max a |v|) 0

/-- One step block of `np.arange`: `m` values starting at `x`, step
`st`. -/
def arangeGo (st : ℚ) : ℕ → ℚ → List ℚ
  | 0, _ => []
  | m + 1, x => x :: arangeGo st m (x + st)

/-- `np.arange(start, stop, step)` for a positive step: the
`⌈(stop-start)/step⌉` values `start + k*step`. -/
def arange (start stop step : ℚ) : List ℚ :=
  arangeGo step ⌈(stop - start) / step⌉₊ start

/-- The search loop of `optimize_span`: walk the candidate spans, keep
the last passing span in `valid`, stop at the first failure. -/
def optGo (Mn w_load : ℚ) (num_spans : ℕ) : List ℚ → ℚ → Except SolveErr ℚ
  | [], valid => .ok valid
  | s :: rest, valid => do
    let res ← solve_continuous_beam_fem num_spans s w_load
    if res.max_moment < Mn then optGo Mn w_load num_spans rest s
    else .ok valid

/-- `optimize_span(Mn, w_load, num_spans, start_span, step, max_span)`
(the Python defaults are `start_span=0.5, step=0.05, max_span=4.0`).
After the loop it re-runs the solver at the retained span and returns
that pair. -/
def optimize_span (Mn w_load : ℚ) (num_spans : ℕ)
    (start_span step max_span : ℚ) : Except SolveErr (ℚ × BeamResult) := do
  let valid ← optGo Mn w_load num_spans
    (arange start_span (max_span + step) step) start_span
  let final ← solve_continuous_beam_fem num_spans valid w_load
  .ok (valid, final)

/-! ### Homogeneity of the solver in `L` and `w`

The reduced system scales by `L⁻¹` (stiffness) and `w*L²` (loads), so the
solved rotations scale by `w*L³`, member end shears by `w*L`, end moments
by `w*L²`.  These lemmas reduce every `(n, L, w)` instance to the
dimensionless base instance `(n, 1, 1)`. -/

set_option maxHeartbeats 1000000 in
lemma kLoc_odd_odd (L : ℚ) (a b : ℕ) (ha : a % 2 = 1) (hb : b % 2 = 1) :
    kLoc L a b = L⁻¹ * kLoc 1 a b := by
  rcases a with _ | _ | _ | _ | a <;> rcases b with _ | _ | _ | _ | b <;>
    first
      | omega
      | (simp only [kLoc, k11, k12, k22, Ebeam, Ibeam]; ring)

set_option maxHeartbeats 1000000 in
lemma kLoc_even_odd (L : ℚ) (a b : ℕ) (ha : a % 2 = 0) (hb : b % 2 = 1) :
    kLoc L a b = (L⁻¹) ^ 2 * kLoc 1 a b := by
  rcases a with _ | _ | _ | _ | a <;> rcases b with _ | _ | _ | _ | b <;>
    first
      | omega
      | (simp only [kLoc, k11, k12, k22, Ebeam, Ibeam]; ring)

lemma fLoc_odd (L w : ℚ) (b : ℕ) (hb : b % 2 = 1) :
    fLoc L w b = w * L ^ 2 * fLoc 1 1 b := by
  rcases b with _ | _ | _ | _ | b <;>
    first
      | omega
      | (simp only [fLoc, femMoment, femShear]; ring)

lemma fLoc_even (L w : ℚ) (b : ℕ) (hb : b % 2 = 0) :
    fLoc L w b = w * L * fLoc 1 1 b := by
  rcases b with _ | _ | _ | _ | b <;>
    first
      | omega
      | (simp only [fLoc, femMoment, femShear]; ring)

lemma elemK_odd_odd (L : ℚ) (e j k : ℕ) :
    elemK L e (2 * j + 1) (2 * k + 1) = L⁻¹ * elemK 1 e (2 * j + 1) (2 * k + 1) := by
  unfold elemK
  split
  · next h => exact kLoc_odd_odd L _ _ (by omega) (by omega)
  · ring

lemma elemK_even_odd (L : ℚ) (e r c : ℕ) (hr : r % 2 = 0) (hc : c % 2 = 1) :
    elemK L e r c = (L⁻¹) ^ 2 * elemK 1 e r c := by
  unfold elemK
  split
  · next h => exact kLoc_even_odd L _ _ (by omega) (by omega)
  · ring

lemma elemF_odd (L w : ℚ) (e j : ℕ) :
    elemF L w e (2 * j + 1) = w * L ^ 2 * elemF 1 1 e (2 * j + 1) := by
  unfold elemF
  split
  · next h => exact fLoc_odd L w _ (by omega)
  · ring

lemma elemF_even (L w : ℚ) (e r : ℕ) (hr : r % 2 = 0) :
    elemF L w e r = w * L * elemF 1 1 e r := by
  unfold elemF
  split
  · next h => exact fLoc_even L w _ (by omega)
  · ring

lemma Kred_smul (n : ℕ) (L : ℚ) : Kred n L = L⁻¹ • Kred n 1 := by
  ext j k
  simp only [Kred, Matrix.smul_apply, Matrix.of_apply, smul_eq_mul, Kglobal,
    Finset.mul_sum]
  exact Finset.sum_congr rfl fun e _ => elemK_odd_odd L e j k

lemma Kglobal_even_odd (n : ℕ) (L : ℚ) (r c : ℕ) (hr : r % 2 = 0)
    (hc : c % 2 = 1) : Kglobal n L r c = (L⁻¹) ^ 2 * Kglobal n 1 r c := by
  unfold Kglobal
  rw [Finset.mul_sum]
  exact Finset.sum_congr rfl fun e _ => elemK_even_odd L e r c hr hc

lemma Ffix_odd (n : ℕ) (L w : ℚ) (j : ℕ) :
    Ffix n L w (2 * j + 1) = w * L ^ 2 * Ffix n 1 1 (2 * j + 1) := by
  unfold Ffix
  rw [Finset.mul_sum]
  exact Finset.sum_congr rfl fun e _ => elemF_odd L w e j

lemma Ffix_even (n : ℕ) (L w : ℚ) (r : ℕ) (hr : r % 2 = 0) :
    Ffix n L w r = w * L * Ffix n 1 1 r := by
  unfold Ffix
  rw [Finset.mul_sum]
  exact Finset.sum_congr rfl fun e _ => elemF_even L w e r hr

lemma Feff_smul (n : ℕ) (L w : ℚ) : Feff n L w = (w * L ^ 2) • Feff n 1 1 := by
  funext j
  simp only [Feff, Pi.smul_apply, smul_eq_mul]
  rw [Ffix_odd]
  ring

lemma det_Kred_smul (n : ℕ) (L : ℚ) :
    (Kred n L).det = (L⁻¹) ^ (n + 1) * (Kred n 1).det := by
  rw [Kred_smul, Matrix.det_smul, Fintype.card_fin]

lemma mulVec_solveVec {m : ℕ} (A : Matrix (Fin m) (Fin m) ℚ) (b : Fin m → ℚ)
    (h : A.det ≠ 0) : A.mulVec (solveVec A b) = b := by
  unfold solveVec
  rw [Matrix.mulVec_smul, Matrix.mulVec_mulVec, Matrix.mul_adjugate,
    Matrix.smul_mulVec_assoc, Matrix.one_mulVec, smul_smul,
    inv_mul_cancel₀ h, one_smul]

lemma solveVec_unique {m : ℕ} (A : Matrix (Fin m) (Fin m) ℚ)
    (b x : Fin m → ℚ) (h : A.det ≠ 0) (hx : A.mulVec x = b) :
    solveVec A b = x := by
  unfold solveVec
  rw [← hx, Matrix.mulVec_mulVec, Matrix.adjugate_mul,
    Matrix.smul_mulVec_assoc, Matrix.one_mulVec, smul_smul,
    inv_mul_cancel₀ h, one_smul]

lemma det_Kred_ne (n : ℕ) (L : ℚ) (hL : L ≠ 0)
    (hdet : (Kred n 1).det ≠ 0) : (Kred n L).det ≠ 0 := by
  rw [det_Kred_smul]
  exact mul_ne_zero (pow_ne_zero _ (inv_ne_zero hL)) hdet

lemma theta_smul (n : ℕ) (L w : ℚ) (hL : L ≠ 0)
    (hdet : (Kred n 1).det ≠ 0) :
    theta n L w = (w * L ^ 3) • theta n 1 1 := by
  have h1 : (Kred n 1).mulVec (theta n 1 1) = Feff n 1 1 :=
    mulVec_solveVec _ _ hdet
  apply solveVec_unique _ _ _ (det_Kred_ne n L hL hdet)
  rw [Kred_smul n L, Matrix.mulVec_smul, Matrix.smul_mulVec_assoc, h1,
    Feff_smul n L w, smul_smul]
  congr 1
  field_simp
  ring

lemma uFull_even (n : ℕ) (L w : ℚ) (r : ℕ) (hr : r % 2 = 0) :
    uFull n L w r = 0 := by
  unfold uFull
  rw [dif_neg (by omega)]

lemma uFull_smul (n : ℕ) (L w : ℚ) (hL : L ≠ 0)
    (hdet : (Kred n 1).det ≠ 0) (r : ℕ) :
    uFull n L w r = (w * L ^ 3) * uFull n 1 1 r := by
  unfold uFull
  split
  · next h =>
      rw [theta_smul n L w hL hdet]
      simp
  · ring

lemma sum4 (f : ℕ → ℚ) :
    ∑ c ∈ Finset.range 4, f c = f 0 + f 1 + f 2 + f 3 := by
  simp [Finset.sum_range_succ]

lemma vStart_smul (n : ℕ) (L w : ℚ) (e : ℕ) (hL : L ≠ 0)
    (hdet : (Kred n 1).det ≠ 0) :
    vStart n L w e = (w * L) * vStart n 1 1 e := by
  unfold vStart fInt
  rw [sum4, sum4,
    uFull_even n L w (2 * e + 0) (by omega),
    uFull_even n 1 1 (2 * e + 0) (by omega),
    uFull_even n L w (2 * e + 2) (by omega),
    uFull_even n 1 1 (2 * e + 2) (by omega),
    uFull_smul n L w hL hdet (2 * e + 1),
    uFull_smul n L w hL hdet (2 * e + 3),
    kLoc_even_odd L 0 1 (by norm_num) (by norm_num),
    kLoc_even_odd L 0 3 (by norm_num) (by norm_num),
    fLoc_even L w 0 (by norm_num)]
  field_simp
  ring

lemma mStart_smul (n : ℕ) (L w : ℚ) (e : ℕ) (hL : L ≠ 0)
    (hdet : (Kred n 1).det ≠ 0) :
    mStart n L w e = (w * L ^ 2) * mStart n 1 1 e := by
  unfold mStart fInt
  rw [sum4, sum4,
    uFull_even n L w (2 * e + 0) (by omega),
    uFull_even n 1 1 (2 * e + 0) (by omega),
    uFull_even n L w (2 * e + 2) (by omega),
    uFull_even n 1 1 (2 * e + 2) (by omega),
    uFull_smul n L w hL hdet (2 * e + 1),
    uFull_smul n L w hL hdet (2 * e + 3),
    kLoc_odd_odd L 1 1 (by norm_num) (by norm_num),
    kLoc_odd_odd L 1 3 (by norm_num) (by norm_num),
    fLoc_odd L w 1 (by norm_num)]
  field_simp
  ring

lemma vVal_smul (n : ℕ) (L w : ℚ) (e k : ℕ) (hL : L ≠ 0)
    (hdet : (Kred n 1).det ≠ 0) :
    vVal n L w e k = (w * L) * vVal n 1 1 e k := by
  unfold vVal xloc
  rw [vStart_smul n L w e hL hdet]
  ring

lemma mVal_smul (n : ℕ) (L w : ℚ) (e k : ℕ) (hL : L ≠ 0)
    (hdet : (Kred n 1).det ≠ 0) :
    mVal n L w e k = (w * L ^ 2) * mVal n 1 1 e k := by
  unfold mVal xloc
  rw [mStart_smul n L w e hL hdet, vStart_smul n L w e hL hdet]
  ring

lemma fold_max_smul (s : Finset ℕ) (c : ℚ) (hc : 0 ≤ c) (f : ℕ → ℚ) :
    s.fold max 0 (fun k => c * f k) = c * s.fold max 0 f := by
  induction s using Finset.induction_on with
  | empty => simp
  | insert h ih =>
      rw [Finset.fold_insert h, Finset.fold_insert h, ih,
        mul_max_of_nonneg _ _ hc]

lemma spanMax_smul (n : ℕ) (L w : ℚ) (e : ℕ) (hL : L ≠ 0)
    (hdet : (Kred n 1).det ≠ 0) (hc : 0 ≤ w * L ^ 2) :
    spanMax n L w e = (w * L ^ 2) * spanMax n 1 1 e := by
  unfold spanMax
  rw [Finset.fold_congr (g := fun k => (w * L ^ 2) * |mVal n 1 1 e k|)
    (fun k _ => by rw [mVal_smul n L w e k hL hdet, abs_mul, abs_of_nonneg hc]),
    fold_max_smul _ _ hc]

lemma maxMoment_smul (n : ℕ) (L w : ℚ) (hL : L ≠ 0)
    (hdet : (Kred n 1).det ≠ 0) (hc : 0 ≤ w * L ^ 2) :
    maxMoment n L w = (w * L ^ 2) * maxMoment n 1 1 := by
  unfold maxMoment
  rw [Finset.fold_congr (g := fun e => (w * L ^ 2) * spanMax n 1 1 e)
    (fun e _ => spanMax_smul n L w e hL hdet hc),
    fold_max_smul _ _ hc]

lemma reaction_smul (n : ℕ) (L w : ℚ) (i : ℕ) (hL : L ≠ 0)
    (hdet : (Kred n 1).det ≠ 0) :
    reaction n L w i = (w * L) * reaction n 1 1 i := by
  unfold reaction
  have hterm : ∀ c ∈ Finset.range (2 * (n + 1)),
      Kglobal n L (2 * i) c * uFull n L w c =
        (w * L) * (Kglobal n 1 (2 * i) c * uFull n 1 1 c) := by
    intro c _
    rcases Nat.even_or_odd c with hc | hc
    · rw [uFull_even n L w c (Nat.even_iff.mp hc),
        uFull_even n 1 1 c (Nat.even_iff.mp hc)]
      ring
    · rw [Kglobal_even_odd n L (2 * i) c (by omega) (Nat.odd_iff.mp hc),
        uFull_smul n L w hL hdet c]
      field_simp
      ring
  have hsum : (∑ c ∈ Finset.range (2 * (n + 1)),
        Kglobal n L (2 * i) c * uFull n L w c) =
      ∑ c ∈ Finset.range (2 * (n + 1)),
        (w * L) * (Kglobal n 1 (2 * i) c * uFull n 1 1 c) :=
    Finset.sum_congr rfl hterm
  rw [hsum, ← Finset.mul_sum, Ffix_even n L w (2 * i) (by omega)]
  ring

/-! ### The base instance `n = 1`, `L = 1`, `w = 1`

For a single span the reduced system is 2x2 and can be solved in closed
form; together with the scaling lemmas this settles every single-span
claim. -/

lemma Kred_one_base : Kred 1 1 = !![(4 : ℚ), 2; 2, 4] := by
  ext j k
  fin_cases j <;> fin_cases k <;>
    norm_num [Kred, Kglobal, elemK, kLoc, k22, Ebeam, Ibeam,
      Finset.sum_range_one]

lemma det_Kred_one_base : (Kred 1 1).det = 12 := by
  rw [Kred_one_base, Matrix.det_fin_two_of]
  norm_num

lemma Feff_one_base : Feff 1 1 1 = ![-(1/12 : ℚ), 1/12] := by
  funext j
  fin_cases j <;>
    norm_num [Feff, Ffix, elemF, fLoc, femMoment, Finset.sum_range_one]

lemma theta_base : theta 1 1 1 = ![-(1/24 : ℚ), 1/24] := by
  have hdet : (Kred 1 1).det ≠ 0 := by rw [det_Kred_one_base]; norm_num
  unfold theta
  rw [Feff_one_base]
  apply solveVec_unique _ _ _ hdet
  rw [Kred_one_base]
  funext j
  fin_cases j <;>
    norm_num [Matrix.mulVec, Matrix.dotProduct, Fin.sum_univ_succ]

lemma vStart_base : vStart 1 1 1 0 = 1/2 := by
  unfold vStart fInt
  rw [sum4]
  norm_num [uFull, theta_base, kLoc, k11, k12, Ebeam, Ibeam, fLoc, femShear]

lemma mStart_base : mStart 1 1 1 0 = 0 := by
  unfold mStart fInt
  rw [sum4]
  norm_num [uFull, theta_base, kLoc, k22, Ebeam, Ibeam, fLoc, femMoment]

lemma reaction_base_zero : reaction 1 1 1 0 = 1/2 := by
  unfold reaction
  rw [show 2 * (1 + 1) = 4 from rfl, sum4]
  norm_num [Kglobal, elemK, kLoc, k11, k12, Ebeam, Ibeam, uFull, theta_base,
    Ffix, elemF, fLoc, femShear, Finset.sum_range_one]

lemma reaction_base_one : reaction 1 1 1 1 = 1/2 := by
  unfold reaction
  rw [show 2 * (1 + 1) = 4 from rfl, sum4]
  norm_num [Kglobal, elemK, kLoc, k11, k12, Ebeam, Ibeam, uFull, theta_base,
    Ffix, elemF, fLoc, femShear, Finset.sum_range_one]

lemma mVal_base (k : ℕ) : mVal 1 1 1 0 k = (k : ℚ)/98 - (k : ℚ)^2/4802 := by
  unfold mVal xloc
  rw [mStart_base, vStart_base]
  ring

lemma vVal_base (k : ℕ) : vVal 1 1 1 0 k = 1/2 - (k : ℚ)/49 := by
  unfold vVal xloc
  rw [vStart_base]
  ring

lemma spanMax_base : spanMax 1 1 1 0 = 300/2401 := by
  unfold spanMax
  apply le_antisymm
  · apply (Finset.fold_max_le _).mpr
    refine ⟨by norm_num, fun k hk => ?_⟩
    rw [Finset.mem_range] at hk
    have hx : (k : ℚ) ≤ 49 := by exact_mod_cast Nat.le_of_lt_succ hk
    have hx0 : (0 : ℚ) ≤ (k : ℚ) := Nat.cast_nonneg k
    rw [mVal_base, abs_le]
    constructor
    · nlinarith
    · rcases le_or_lt (k : ℚ) 24 with h24 | h24
      · nlinarith
      · have h25n : 25 ≤ k := by
          have h24n : (24 : ℕ) < k := by exact_mod_cast h24
          omega
        have h25 : (25 : ℚ) ≤ (k : ℚ) := by exact_mod_cast h25n
        nlinarith
  · apply (Finset.le_fold_max _).mpr
    refine Or.inr ⟨24, by norm_num, ?_⟩
    rw [mVal_base, abs_of_nonneg (by push_cast; norm_num)]
    push_cast
    norm_num

lemma maxMoment_base : maxMoment 1 1 1 = 300/2401 := by
  unfold maxMoment
  rw [Finset.range_one, Finset.fold_singleton, spanMax_base,
    max_eq_left (by norm_num)]

/-! ### `np.max(np.abs(.))` on lists -/

lemma foldl_absmax_init_le (l : List ℚ) :
    ∀ a : ℚ, a ≤ l.foldl (fun a v => max a |v|) a := by
  induction l with
  | nil => intro a; exact le_refl a
  | cons x t ih => intro a; exact le_trans (le_max_left a |x|) (ih _)

lemma le_foldl_absmax (l : List ℚ) (x : ℚ) :
    ∀ a : ℚ, x ∈ l → |x| ≤ l.foldl (fun a v => max a |v|) a := by
  induction l with
  | nil => intro a hx; cases hx
  | cons y t ih =>
      intro a hx
      rcases List.mem_cons.mp hx with rfl | hx
      · exact le_trans (le_max_right a |x|) (foldl_absmax_init_le t _)
      · exact ih _ hx

lemma listMaxAbs_le (l : List ℚ) (c : ℚ) (h0 : 0 ≤ c)
    (h : ∀ x ∈ l, |x| ≤ c) : listMaxAbs l ≤ c := by
  unfold listMaxAbs
  have aux : ∀ t : List ℚ, (∀ x ∈ t, |x| ≤ c) → ∀ a, a ≤ c →
      t.foldl (fun a v => max a |v|) a ≤ c := by
    intro t
    induction t with
    | nil => intro _ a ha; exact ha
    | cons y s ih =>
        intro ht a ha
        exact ih (fun x hx => ht x (List.mem_cons_of_mem _ hx)) _
          (max_le ha (ht y (List.mem_cons_self _ _)))
  exact aux l h 0 h0

lemma le_listMaxAbs (l : List ℚ) (x : ℚ) (hx : x ∈ l) :
    |x| ≤ listMaxAbs l :=
  le_foldl_absmax l x 0 hx

lemma foldl_absmax_smul (c : ℚ) (hc : 0 ≤ c) (l : List ℚ) :
    ∀ a : ℚ, (l.map fun x => c * x).foldl (fun a v => max a |v|) (c * a) =
      c * l.foldl (fun a v => max a |v|) a := by
  induction l with
  | nil => intro a; rfl
  | cons y t ih =>
      intro a
      simp only [List.map_cons, List.foldl_cons]
      rw [abs_mul, abs_of_nonneg hc, ← mul_max_of_nonneg _ _ hc, ih]

lemma listMaxAbs_smul (c : ℚ) (hc : 0 ≤ c) (l : List ℚ) :
    listMaxAbs (l.map fun x => c * x) = c * listMaxAbs l := by
  unfold listMaxAbs
  have h := foldl_absmax_smul c hc l 0
  rwa [mul_zero] at h

/-! ### Single-span facts assembled -/

lemma shearList_one (L w : ℚ) :
    shearList 1 L w = (List.range 50).map (vVal 1 L w 0) := by
  rw [shearList, show List.range 1 = [0] by decide]
  simp

lemma listMaxAbs_shear_base : listMaxAbs (shearList 1 1 1) = 1/2 := by
  rw [shearList_one]
  apply le_antisymm
  · apply listMaxAbs_le _ _ (by norm_num)
    intro x hx
    rcases List.mem_map.mp hx with ⟨k, hk, rfl⟩
    rw [List.mem_range] at hk
    have hx49 : (k : ℚ) ≤ 49 := by exact_mod_cast Nat.le_of_lt_succ hk
    have hx0 : (0 : ℚ) ≤ (k : ℚ) := Nat.cast_nonneg k
    rw [vVal_base, abs_le]
    constructor <;> [linarith; linarith]
  · have h0 : vVal 1 1 1 0 0 ∈ (List.range 50).map (vVal 1 1 1 0) :=
      List.mem_map_of_mem _ (by simp)
    have hval : |vVal 1 1 1 0 0| = 1/2 := by
      rw [vVal_base]
      push_cast
      rw [abs_of_nonneg (by norm_num)]
      norm_num
    have := le_listMaxAbs _ _ h0
    rwa [hval] at this

lemma det_Kred_one_ne (L : ℚ) (hL : L ≠ 0) : (Kred 1 L).det ≠ 0 :=
  det_Kred_ne 1 L hL (by rw [det_Kred_one_base]; norm_num)

lemma solve_one_ok (L w : ℚ) (hL : L ≠ 0) :
    solve_continuous_beam_fem 1 L w = .ok (beamResult 1 L w) := by
  unfold solve_continuous_beam_fem
  rw [if_neg hL, if_neg (det_Kred_one_ne L hL)]

lemma maxMoment_one (L w : ℚ) (hL : L ≠ 0) (hw : 0 ≤ w * L ^ 2) :
    maxMoment 1 L w = w * L ^ 2 * (300/2401) := by
  rw [maxMoment_smul 1 L w hL (by rw [det_Kred_one_base]; norm_num) hw,
    maxMoment_base]

lemma reactionsList_one (L w : ℚ) (hL : L ≠ 0) :
    reactionsList 1 L w = [w * L * (1/2), w * L * (1/2)] := by
  have hdet : (Kred 1 1).det ≠ 0 := by rw [det_Kred_one_base]; norm_num
  unfold reactionsList
  rw [show List.range 2 = [0, 1] by decide]
  simp only [List.map_cons, List.map_nil]
  rw [reaction_smul 1 L w 0 hL hdet, reaction_smul 1 L w 1 hL hdet,
    reaction_base_zero, reaction_base_one]

lemma shear_max_one (L w : ℚ) (hL : L ≠ 0) (hw : 0 ≤ w * L) :
    listMaxAbs (shearList 1 L w) = w * L * (1/2) := by
  have hdet : (Kred 1 1).det ≠ 0 := by rw [det_Kred_one_base]; norm_num
  rw [shearList_one]
  have hmap : (List.range 50).map (vVal 1 L w 0) =
      ((List.range 50).map (vVal 1 1 1 0)).map fun x => (w * L) * x := by
    rw [List.map_map]
    exact List.map_congr_left fun k _ => vVal_smul 1 L w 0 k hL hdet
  rw [hmap, listMaxAbs_smul _ hw, ← shearList_one, listMaxAbs_shear_base]

/-! ## Claim C1 -/

/-- C1 (amended): for a single span with `L > 0`, `w > 0` the solver
succeeds, the reported `max|M|` is `w*L² * 300/2401` (the 50-point
sampling misses midspan, so the value is `(2400/2401) * wL²/8`, not
`wL²/8`), the maximum absolute sampled shear is `w*L/2`, and both
support reactions are `w*L/2`. -/
theorem c1_simple_span (L w : ℚ) (hL : 0 < L) (hw : 0 < w) :
    solve_continuous_beam_fem 1 L w = .ok (beamResult 1 L w) ∧
    (beamResult 1 L w).max_moment = w * L ^ 2 * (300/2401) ∧
    listMaxAbs (beamResult 1 L w).shear = w * L / 2 ∧
    (beamResult 1 L w).reactions = [w * L / 2, w * L / 2] := by
  have hL0 : L ≠ 0 := ne_of_gt hL
  refine ⟨solve_one_ok L w hL0, ?_, ?_, ?_⟩
  · exact maxMoment_one L w hL0 (by positivity)
  · show listMaxAbs (shearList 1 L w) = w * L / 2
    rw [shear_max_one L w hL0 (by positivity)]
    ring
  · show reactionsList 1 L w = [w * L / 2, w * L / 2]
    rw [reactionsList_one L w hL0, show w * L * (1/2) = w * L / 2 by ring]

/-- C1 (counterexample): at `numSpans = 1`, `L = 1`, `w = 8` the solver
reports `max|M| = 2400/2401`, not the claimed `w*L²/8 = 1` — the relative
error is `1/2401 ≈ 4.2e-4`, far above floating-point tolerance. -/
theorem c1_counterexample :
    (solve_continuous_beam_fem 1 1 8).toOption.map BeamResult.max_moment =
      some (2400/2401) ∧ (2400/2401 : ℚ) ≠ 8 * 1 ^ 2 / 8 := by
  constructor
  · rw [solve_one_ok 1 8 one_ne_zero]
    show some (maxMoment 1 1 8) = some (2400/2401)
    rw [maxMoment_one 1 8 one_ne_zero (by norm_num)]
    norm_num
  · norm_num

/-- C1 witness: the amended simple-span theorem applied at `L = 2`,
`w = 3`. -/
theorem c1_witness :
    solve_continuous_beam_fem 1 2 3 = .ok (beamResult 1 2 3) ∧
    (beamResult 1 2 3).max_moment = 3 * 2 ^ 2 * (300/2401) ∧
    listMaxAbs (beamResult 1 2 3).shear = 3 * 2 / 2 ∧
    (beamResult 1 2 3).reactions = [3 * 2 / 2, 3 * 2 / 2] :=
  c1_simple_span 2 3 (by norm_num) (by norm_num)

/-! ## Claim C9 -/

lemma det_Kred_zero_spans (L : ℚ) : (Kred 0 L).det = 0 := by
  rw [Matrix.det_fin_one]
  simp [Kred, Kglobal]

/-- C9 (amended): the solver performs no input validation and has no
`InvalidInput` failure mode.  A zero span length fails with a
division-by-zero error, a zero span count fails with a singular-system
error, and a negative (or any nonzero) span length is accepted: the
single-span call returns a normal result. -/
theorem c9_amended (n : ℕ) (L w : ℚ) :
    solve_continuous_beam_fem n 0 w = .error .zeroDiv ∧
    (L ≠ 0 → solve_continuous_beam_fem 0 L w = .error .singular) ∧
    (L ≠ 0 → solve_continuous_beam_fem 1 L w = .ok (beamResult 1 L w)) := by
  refine ⟨?_, ?_, fun hL => solve_one_ok L w hL⟩
  · unfold solve_continuous_beam_fem
    rw [if_pos rfl]
  · intro hL
    unfold solve_continuous_beam_fem
    rw [if_neg hL, if_pos (det_Kred_zero_spans L)]

/-- C9 (counterexample): a negative span length (`L = -1`) does not fail
at all — the solver returns a normal result — and a zero span length
fails with a division-by-zero error, not an `InvalidInput` rejection
(no such failure mode exists in the code). -/
theorem c9_counterexample :
    solve_continuous_beam_fem 1 (-1) 1 = .ok (beamResult 1 (-1) 1) ∧
    solve_continuous_beam_fem 1 0 1 = .error .zeroDiv := by
  refine ⟨solve_one_ok (-1) 1 (by norm_num), ?_⟩
  unfold solve_continuous_beam_fem
  rw [if_pos rfl]

/-- C9 witness: the amended theorem applied at `n = 2`, `L = -1`,
`w = 3`. -/
theorem c9_witness :
    solve_continuous_beam_fem 2 0 3 = .error .zeroDiv ∧
    solve_continuous_beam_fem 0 (-1) 3 = .error .singular ∧
    solve_continuous_beam_fem 1 (-1) 3 = .ok (beamResult 1 (-1) 3) := by
  obtain ⟨h1, h2, h3⟩ := c9_amended 2 (-1) 3
  exact ⟨h1, h2 (by norm_num), h3 (by norm_num)⟩

/-! ## The optimizer loop -/

lemma solve_ok_inv (n : ℕ) (L w : ℚ) (r : BeamResult)
    (h : solve_continuous_beam_fem n L w = .ok r) :
    L ≠ 0 ∧ (Kred n L).det ≠ 0 ∧ r = beamResult n L w := by
  unfold solve_continuous_beam_fem at h
  by_cases h0 : L = 0
  · rw [if_pos h0] at h; cases h
  · rw [if_neg h0] at h
    by_cases h1 : (Kred n L).det = 0
    · rw [if_pos h1] at h; cases h
    · rw [if_neg h1] at h
      exact ⟨h0, h1, (Except.ok.inj h).symm⟩

lemma optGo_cons_lt (Mn w : ℚ) (n : ℕ) (s v : ℚ) (rest : List ℚ)
    (r : BeamResult) (h : solve_continuous_beam_fem n s w = .ok r)
    (hlt : r.max_moment < Mn) :
    optGo Mn w n (s :: rest) v = optGo Mn w n rest s := by
  simp only [optGo]
  rw [h]
  show (if r.max_moment < Mn then optGo Mn w n rest s else .ok v) = _
  rw [if_pos hlt]

lemma optGo_cons_ge (Mn w : ℚ) (n : ℕ) (s v : ℚ) (rest : List ℚ)
    (r : BeamResult) (h : solve_continuous_beam_fem n s w = .ok r)
    (hge : ¬r.max_moment < Mn) :
    optGo Mn w n (s :: rest) v = .ok v := by
  simp only [optGo]
  rw [h]
  show (if r.max_moment < Mn then optGo Mn w n rest s else .ok v) = _
  rw [if_neg hge]

lemma optimize_span_go_error (Mn w : ℚ) (n : ℕ) (start step maxs : ℚ)
    (e : SolveErr)
    (h : optGo Mn w n (arange start (maxs + step) step) start = .error e) :
    optimize_span Mn w n start step maxs = .error e := by
  unfold optimize_span
  rw [h]
  rfl

lemma optimize_span_go_ok (Mn w : ℚ) (n : ℕ) (start step maxs v : ℚ)
    (h : optGo Mn w n (arange start (maxs + step) step) start = .ok v) :
    optimize_span Mn w n start step maxs =
      match solve_continuous_beam_fem n v w with
      | .error e => .error e
      | .ok fr => .ok (v, fr) := by
  unfold optimize_span
  rw [h]
  show (do
      let final ← solve_continuous_beam_fem n v w
      (Except.ok (v, final) : Except SolveErr (ℚ × BeamResult))) = _
  cases solve_continuous_beam_fem n v w with
  | error e => rfl
  | ok fr => rfl

lemma optimize_span_ok (Mn w : ℚ) (n : ℕ) (start step maxs v : ℚ)
    (fr : BeamResult)
    (h : optGo Mn w n (arange start (maxs + step) step) start = .ok v)
    (h2 : solve_continuous_beam_fem n v w = .ok fr) :
    optimize_span Mn w n start step maxs = .ok (v, fr) := by
  rw [optimize_span_go_ok Mn w n start step maxs v h, h2]

/-- The candidate grid of the default call
`optimize_span(Mn, w, n, 0.5, 0.05, 4.0)`: its first two entries are
`0.5` and `0.55`. -/
lemma arange_default :
    arange (1/2) (4 + 1/20) (1/20) =
      1/2 :: 11/20 :: arangeGo (1/20) 69 (11/20 + 1/20) := by
  unfold arange
  rw [show ((4 + 1/20 : ℚ) - 1/2) / (1/20) = ((71 : ℕ) : ℚ) by norm_num,
    Nat.ceil_natCast]
  show (1/2 : ℚ) :: arangeGo (1/20) 70 (1/2 + 1/20) = _
  rw [show (1/2 + 1/20 : ℚ) = 11/20 by norm_num]
  rfl

/-! ## Claim C4 -/

/-- C4 (amended): the optimizer's accept condition is the strict
`res['max_moment'] < Mn`.  A candidate span whose solved maximum moment
equals `Mn` exactly (utilization exactly `1.0`) is rejected: the search
stops there and the previously retained span is returned. -/
theorem c4_strict_boundary (Mn w : ℚ) (n : ℕ) (s v : ℚ) (rest : List ℚ)
    (r : BeamResult) (h : solve_continuous_beam_fem n s w = .ok r)
    (heq : r.max_moment = Mn) :
    optGo Mn w n (s :: rest) v = .ok v :=
  optGo_cons_ge Mn w n s v rest r h (by rw [heq]; exact lt_irrefl Mn)

/-- C4 (counterexample): with `Mn = 363/9604`, `w = 1`, one span and the
default grid, the candidate span `11/20` has solved maximum moment
exactly `Mn` (utilization exactly `1.0`), yet the optimizer rejects it
and returns best span `1/2`. -/
theorem c4_counterexample :
    (optimize_span (363/9604) 1 1 (1/2) (1/20) 4).toOption.map Prod.fst =
      some (1/2) ∧
    (beamResult 1 (11/20) 1).max_moment = 363/9604 ∧
    ((1 : ℚ)/2) ≠ 11/20 := by
  have hm2 : (beamResult 1 (11/20) 1).max_moment = 363/9604 := by
    show maxMoment 1 (11/20) 1 = 363/9604
    rw [maxMoment_one (11/20) 1 (by norm_num) (by norm_num)]
    norm_num
  refine ⟨?_, hm2, by norm_num⟩
  have hgo : optGo (363/9604) 1 1 (arange (1/2) (4 + 1/20) (1/20)) (1/2) =
      .ok (1/2) := by
    rw [arange_default,
      optGo_cons_lt (363/9604) 1 1 (1/2) (1/2) _ _
        (solve_one_ok (1/2) 1 (by norm_num))
        (by
          show maxMoment 1 (1/2) 1 < 363/9604
          rw [maxMoment_one (1/2) 1 (by norm_num) (by norm_num)]
          norm_num)]
    exact optGo_cons_ge (363/9604) 1 1 (11/20) (1/2) _ _
      (solve_one_ok (11/20) 1 (by norm_num))
      (by rw [hm2]; exact lt_irrefl _)
  rw [optimize_span_ok (363/9604) 1 1 (1/2) (1/20) 4 (1/2) _ hgo
    (solve_one_ok (1/2) 1 (by norm_num))]
  rfl

/-- C4 witness: the amended strict-boundary theorem applied to the
single candidate `1/2` with `Mn` equal to its solved maximum moment
`75/2401`. -/
theorem c4_witness : optGo (75/2401) 1 1 [1/2] 0 = .ok 0 :=
  c4_strict_boundary (75/2401) 1 1 (1/2) 0 [] (beamResult 1 (1/2) 1)
    (solve_one_ok (1/2) 1 (by norm_num))
    (by
      show maxMoment 1 (1/2) 1 = 75/2401
      rw [maxMoment_one (1/2) 1 (by norm_num) (by norm_num)]
      norm_num)

/-! ## Claim C10 -/

/-- C10 (confirmed): whenever `optimize_span` returns a pair
`(span, result)`, the result is exactly the solver's output at that
span — the code re-runs the solver on the retained span before
returning (this also covers the case where the very first candidate
failed and the returned span is the starting span). -/
theorem c10_result_consistent (Mn w : ℚ) (n : ℕ)
    (start step maxs v : ℚ) (r : BeamResult)
    (h : optimize_span Mn w n start step maxs = .ok (v, r)) :
    solve_continuous_beam_fem n v w = .ok r := by
  cases h1 : optGo Mn w n (arange start (maxs + step) step) start with
  | error e =>
      rw [optimize_span_go_error Mn w n start step maxs e h1] at h
      cases h
  | ok v' =>
      rw [optimize_span_go_ok Mn w n start step maxs v' h1] at h
      cases h2 : solve_continuous_beam_fem n v' w with
      | error e => rw [h2] at h; simp at h
      | ok fr =>
          rw [h2] at h
          simp only [Except.ok.injEq, Prod.mk.injEq] at h
          obtain ⟨hv, hr⟩ := h
          subst hv
          subst hr
          exact h2

/-- C10 witness: a full optimizer run with `Mn = 0` (so the first
candidate already fails): the returned pair is
`(0.5, solve(1, 0.5, 1))`, and the theorem extracts the consistency
equation from it. -/
theorem c10_witness :
    solve_continuous_beam_fem 1 (1/2) 1 = .ok (beamResult 1 (1/2) 1) :=
  c10_result_consistent 0 1 1 (1/2) (1/20) 4 (1/2) (beamResult 1 (1/2) 1)
    (optimize_span_ok 0 1 1 (1/2) (1/20) 4 (1/2) _
      (by
        rw [arange_default]
        exact optGo_cons_ge 0 1 1 (1/2) (1/2) _ _
          (solve_one_ok (1/2) 1 (by norm_num))
          (by
            show ¬maxMoment 1 (1/2) 1 < 0
            rw [maxMoment_one (1/2) 1 (by norm_num) (by norm_num)]
            norm_num))
      (solve_one_ok (1/2) 1 (by norm_num)))

/-! ## Claim C5: equilibrium of the reactions -/

lemma list_sum_map_range (f : ℕ → ℚ) (m : ℕ) :
    ((List.range m).map f).sum = ∑ i ∈ Finset.range m, f i := by
  induction m with
  | zero => rfl
  | succ m ih =>
      rw [List.range_succ, List.map_append, List.sum_append,
        Finset.sum_range_succ, ih]
      simp

lemma kLoc_col_sum (L : ℚ) (d : ℕ) : kLoc L 0 d + kLoc L 2 d = 0 := by
  rcases d with _ | _ | _ | _ | d <;> (simp only [kLoc]; ring)

lemma sum_range_two_support (n e : ℕ) (he : e < n) (f : ℕ → ℚ)
    (hf : ∀ i, i ≠ e → i ≠ e + 1 → f i = 0) :
    ∑ i ∈ Finset.range (n + 1), f i = f e + f (e + 1) := by
  have hsub : ({e, e + 1} : Finset ℕ) ⊆ Finset.range (n + 1) := by
    intro x hx
    rw [Finset.mem_insert, Finset.mem_singleton] at hx
    rw [Finset.mem_range]
    omega
  have hvan : ∀ x ∈ Finset.range (n + 1), x ∉ ({e, e + 1} : Finset ℕ) →
      f x = 0 := by
    intro x _ hnx
    rw [Finset.mem_insert, Finset.mem_singleton] at hnx
    push_neg at hnx
    exact hf x hnx.1 hnx.2
  calc ∑ i ∈ Finset.range (n + 1), f i
      = ∑ i ∈ ({e, e + 1} : Finset ℕ), f i :=
        (Finset.sum_subset hsub hvan).symm
    _ = f e + f (e + 1) := Finset.sum_pair (by omega)

lemma sum_reactions (n : ℕ) (L w : ℚ) :
    ∑ i ∈ Finset.range (n + 1), reaction n L w i = n * (w * L) := by
  unfold reaction
  rw [Finset.sum_add_distrib]
  have hK : (∑ i ∈ Finset.range (n + 1), ∑ c ∈ Finset.range (2 * (n + 1)),
      Kglobal n L (2 * i) c * uFull n L w c) = 0 := by
    rw [Finset.sum_comm]
    apply Finset.sum_eq_zero
    intro c _
    rw [← Finset.sum_mul]
    suffices h : ∑ i ∈ Finset.range (n + 1), Kglobal n L (2 * i) c = 0 by
      rw [h, zero_mul]
    unfold Kglobal
    rw [Finset.sum_comm]
    apply Finset.sum_eq_zero
    intro e he
    rw [Finset.mem_range] at he
    rw [sum_range_two_support n e he _ ?van]
    case van =>
      intro i hie hie1
      unfold elemK
      rw [if_neg (by omega)]
    unfold elemK
    by_cases hc : 2 * e ≤ c ∧ c ≤ 2 * e + 3
    · rw [if_pos ⟨by omega, by omega, hc.1, hc.2⟩,
        if_pos ⟨by omega, by omega, hc.1, hc.2⟩,
        show 2 * e - 2 * e = 0 by omega,
        show 2 * (e + 1) - 2 * e = 2 by omega]
      exact kLoc_col_sum L (c - 2 * e)
    · rw [if_neg (by omega), if_neg (by omega), add_zero]
  rw [hK, zero_add]
  unfold Ffix
  rw [Finset.sum_comm]
  have hrow : ∀ e ∈ Finset.range n,
      (∑ i ∈ Finset.range (n + 1), elemF L w e (2 * i)) = w * L := by
    intro e he
    rw [Finset.mem_range] at he
    rw [sum_range_two_support n e he _ ?van2]
    case van2 =>
      intro i hie hie1
      unfold elemF
      rw [if_neg (by omega)]
    unfold elemF
    rw [if_pos (by omega), if_pos (by omega),
      show 2 * e - 2 * e = 0 by omega,
      show 2 * (e + 1) - 2 * e = 2 by omega]
    simp only [fLoc, femShear]
    ring
  rw [Finset.sum_congr rfl hrow, Finset.sum_const, Finset.card_range,
    nsmul_eq_mul]

/-- C5 (confirmed): for every solved beam, the sum of the support
reactions equals the total applied load `numSpans * w * L` — exactly, in
the rational model, hence a fortiori within floating tolerance. -/
theorem c5_equilibrium (n : ℕ) (L w : ℚ) (r : BeamResult)
    (h : solve_continuous_beam_fem n L w = .ok r) :
    r.reactions.sum = (n : ℚ) * w * L := by
  obtain ⟨-, -, hr⟩ := solve_ok_inv n L w r h
  subst hr
  show (reactionsList n L w).sum = (n : ℚ) * w * L
  unfold reactionsList
  rw [list_sum_map_range, sum_reactions]
  ring

/-- C5 witness: the equilibrium theorem applied to the solved beam with
`n = 1`, `L = 1`, `w = 1`. -/
theorem c5_witness : (beamResult 1 1 1).reactions.sum = ((1 : ℕ) : ℚ) * 1 * 1 :=
  c5_equilibrium 1 1 1 (beamResult 1 1 1) (solve_one_ok 1 1 one_ne_zero)

/-! ## Claim C6: strict monotonicity of `max|M|` in the span length -/

lemma abs_le_spanMax (n : ℕ) (L w : ℚ) (e k : ℕ) (hk : k < 50) :
    |mVal n L w e k| ≤ spanMax n L w e :=
  (Finset.le_fold_max _).mpr (Or.inr ⟨k, Finset.mem_range.mpr hk, le_refl _⟩)

lemma spanMax_le_maxMoment (n : ℕ) (L w : ℚ) (e : ℕ) (he : e < n) :
    spanMax n L w e ≤ maxMoment n L w :=
  (Finset.le_fold_max _).mpr (Or.inr ⟨e, Finset.mem_range.mpr he, le_refl _⟩)

/-- On the base instance the sampled bending moments of the first span
cannot all vanish: their second difference at `k = 0, 1, 2` is the fixed
nonzero constant `-1/2401`.  Hence `max|M| > 0`. -/
lemma maxMoment_base_pos (n : ℕ) (hn : 1 ≤ n) : 0 < maxMoment n 1 1 := by
  have hb : ∀ k : ℕ, mVal n 1 1 0 k =
      -mStart n 1 1 0 + vStart n 1 1 0 * ((k : ℚ)/49) - ((k : ℚ)/49) ^ 2/2 := by
    intro k
    simp only [mVal, xloc, mul_one]
    ring
  have hd : mVal n 1 1 0 0 - 2 * mVal n 1 1 0 1 + mVal n 1 1 0 2 =
      -(1/2401) := by
    rw [hb 0, hb 1, hb 2]
    push_cast
    ring
  have hle : ∀ k : ℕ, k < 50 → |mVal n 1 1 0 k| ≤ maxMoment n 1 1 :=
    fun k hk => le_trans (abs_le_spanMax n 1 1 0 k hk)
      (spanMax_le_maxMoment n 1 1 0 hn)
  by_contra hcon
  push_neg at hcon
  have hz : ∀ k : ℕ, k < 50 → mVal n 1 1 0 k = 0 := fun k hk =>
    abs_eq_zero.mp (le_antisymm ((hle k hk).trans hcon) (abs_nonneg _))
  rw [hz 0 (by norm_num), hz 1 (by norm_num), hz 2 (by norm_num)] at hd
  norm_num at hd

/-- C6 (confirmed): for a fixed span count `n ≥ 1` and load `w > 0`, the
reported `max|M|` is strictly increasing in the span length on solved
beams: `max|M| = w*L² * maxMoment(n,1,1)` with a positive constant. -/
theorem c6_monotonic (n : ℕ) (L1 L2 w : ℚ) (r1 r2 : BeamResult)
    (hn : 1 ≤ n) (h1 : 0 < L1) (h12 : L1 < L2) (hw : 0 < w)
    (hs1 : solve_continuous_beam_fem n L1 w = .ok r1)
    (hs2 : solve_continuous_beam_fem n L2 w = .ok r2) :
    r1.max_moment < r2.max_moment := by
  obtain ⟨hL1, hdetL1, hr1⟩ := solve_ok_inv n L1 w r1 hs1
  obtain ⟨hL2, -, hr2⟩ := solve_ok_inv n L2 w r2 hs2
  have hdet1 : (Kred n 1).det ≠ 0 := by
    intro h0
    apply hdetL1
    rw [det_Kred_smul, h0, mul_zero]
  subst hr1
  subst hr2
  show maxMoment n L1 w < maxMoment n L2 w
  rw [maxMoment_smul n L1 w hL1 hdet1 (by positivity),
    maxMoment_smul n L2 w hL2 hdet1 (by positivity)]
  have hp : L1 ^ 2 < L2 ^ 2 := by nlinarith
  exact mul_lt_mul_of_pos_right (mul_lt_mul_of_pos_left hp hw)
    (maxMoment_base_pos n hn)

/-- C6 witness: the monotonicity theorem applied at `n = 1`, `w = 1`,
`L1 = 1 < L2 = 2`. -/
theorem c6_witness :
    (beamResult 1 1 1).max_moment < (beamResult 1 2 1).max_moment :=
  c6_monotonic 1 1 2 1 (beamResult 1 1 1) (beamResult 1 2 1)
    (le_refl 1) one_pos one_lt_two one_pos
    (solve_one_ok 1 1 one_ne_zero) (solve_one_ok 2 1 two_ne_zero)

/-! ## wind_load.py -/

/-- The shared speed row of regions `A0`–`A5` in `WIND_DATA`
(return period in years, speed in m/s), in the source's sorted key
order. -/
def rowA : List (ℕ × ℚ) :=
  [(1, 30), (5, 32), (10, 34), (20, 37), (25, 37), (50, 39), (100, 41),
   (200, 43), (250, 43), (500, 45), (1000, 46), (2000, 48), (2500, 48),
   (5000, 50), (10000, 51)]

/-- The shared speed row of regions `B1`, `B2`. -/
def rowB : List (ℕ × ℚ) :=
  [(1, 26), (5, 28), (10, 33), (20, 38), (25, 39), (50, 44), (100, 48),
   (200, 52), (250, 53), (500, 57), (1000, 60), (2000, 63), (2500, 64),
   (5000, 67), (10000, 69)]

/-- The speed row of region `C`. -/
def rowC : List (ℕ × ℚ) :=
  [(1, 23), (5, 33), (10, 39), (20, 45), (25, 47), (50, 52), (100, 56),
   (200, 61), (250, 62), (500, 66), (1000, 70), (2000, 73), (2500, 74),
   (5000, 78), (10000, 81)]

/-- The speed row of region `D`. -/
def rowD : List (ℕ × ℚ) :=
  [(1, 23), (5, 35), (10, 43), (20, 51), (25, 53), (50, 60), (100, 66),
   (200, 72), (250, 74), (500, 80), (1000, 85), (2000, 90), (2500, 91),
   (5000, 95), (10000, 99)]

/-- The shared speed row of regions `NZ1`, `NZ2`. -/
def rowNZ12 : List (ℕ × ℚ) :=
  [(1, 31), (5, 35), (10, 37), (20, 39), (25, 39), (50, 41), (100, 42),
   (200, 43), (250, 44), (500, 45), (1000, 46), (2000, 47), (2500, 47),
   (5000, 48), (10000, 49)]

/-- The speed row of region `NZ3`. -/
def rowNZ3 : List (ℕ × ℚ) :=
  [(1, 37), (5, 42), (10, 44), (20, 46), (25, 46), (50, 48), (100, 50),
   (200, 51), (250, 51), (500, 53), (1000, 54), (2000, 55), (2500, 55),
   (5000, 56), (10000, 57)]

/-- The speed row of region `NZ4`. -/
def rowNZ4 : List (ℕ × ℚ) :=
  [(1, 38), (5, 42), (10, 43), (20, 44), (25, 45), (50, 46), (100, 47),
   (200, 48), (250, 49), (500, 50), (1000, 50), (2000, 51), (2500, 52),
   (5000, 52), (10000, 53)]

/-- `WIND_DATA`: the module-level wind speed table, keyed by region
code; every row's keys are stored in (strictly) increasing order, as the
source writes them. -/
def WIND_DATA : List (String × List (ℕ × ℚ)) :=
  [("A0", rowA), ("A1", rowA), ("A2", rowA), ("A3", rowA), ("A4", rowA),
   ("A5", rowA), ("B1", rowB), ("B2", rowB), ("C", rowC), ("D", rowD),
   ("NZ1", rowNZ12), ("NZ2", rowNZ12), ("NZ3", rowNZ3), ("NZ4", rowNZ4)]

/-- The region-found branch of `get_vr_from_ari`: exact key hit, else the
first (smallest, since keys are sorted) tabulated year `>=` the request,
else the value at the largest tabulated year.  The empty-table default
`0` is unreachable (every row is nonempty). -/
def vrFromTable (data : List (ℕ × ℚ)) (ret_period : ℕ) : ℚ :=
  match data.find? (fun p => p.1 == ret_period) with
  | some p => p.2
  | none =>
    match data.find? (fun p => decide (ret_period ≤ p.1)) with
    | some p => p.2
    | none => (data.getLast?.map Prod.snd).getD 0

/-- `get_vr_from_ari(region, ret_period)`: falls back to the default
speed `45.0` when the region is not in `WIND_DATA`. -/
def get_vr_from_ari (region : String) (ret_period : ℕ) : ℚ :=
  match WIND_DATA.lookup region with
  | none => 45
  | some data => vrFromTable data ret_period

/-- `calculate_wind_pressure(v_des, c_fig, ka, kc, kl, p_dyn_factor)`:
`0.5 * rho_air * v_des**2 * c_fig * ka * kc * kl * p_dyn_factor / 1000`
with `rho_air = 1.2`; the sign of the coefficient product is kept. -/
def calculate_wind_pressure (v_des c_fig ka kc kl p_dyn_factor : ℚ) : ℚ :=
  0.5 * 1.2 * v_des ^ 2 * c_fig * ka * kc * kl * p_dyn_factor / 1000

/-! ## app.py: governing wind direction -/

/-- The two wind directions compared by the `Run Analysis` handler. -/
inductive WindDir where
  | deg0
  | deg90
  deriving DecidableEq

/-- The governing-direction comparison in `app.py`:
`if res_0['cpe'] < res_90['cpe']` selects direction 0, `else` (including
exact ties) selects direction 90. -/
def governingCpe (cpe0 cpe90 : ℚ) : ℚ × WindDir :=
  if cpe0 < cpe90 then (cpe0, .deg0) else (cpe90, .deg90)

/-! ## Claim C2 -/

/-- C2 (amended): the returned design pressure is the signed value
`0.5 * 1.2 * v² * (cpe*Ka*Kc*Kl) * Cdyn / 1000` (kPa) — no absolute
value is taken and there is no separate `Kp` parameter — so a negative
coefficient product with nonzero speed yields a negative pressure. -/
theorem c2_signed_pressure (v c ka kc kl pd : ℚ) :
    calculate_wind_pressure v c ka kc kl pd =
      0.5 * 1.2 * v ^ 2 * (c * ka * kc * kl) * pd / 1000 ∧
    (c * ka * kc * kl * pd < 0 → v ≠ 0 →
      calculate_wind_pressure v c ka kc kl pd < 0) := by
  constructor
  · unfold calculate_wind_pressure
    ring
  · intro hneg hv
    unfold calculate_wind_pressure
    have hv2 : 0 < v ^ 2 := by positivity
    rw [show 0.5 * 1.2 * v ^ 2 * c * ka * kc * kl * pd / 1000 =
      (3/5000) * (v ^ 2 * (c * ka * kc * kl * pd)) by ring]
    apply mul_neg_of_pos_of_neg (by norm_num)
    exact mul_neg_of_pos_of_neg hv2 hneg

/-- C2 (counterexample): at `v_des = 10`, `cpe = -1` and all other
factors `1`, the function returns `-3/50` kPa, whereas the claimed
magnitude is `|−3/50| = 3/50`. -/
theorem c2_counterexample :
    calculate_wind_pressure 10 (-1) 1 1 1 1 = -(3/50) ∧
    |(0.5 * 1.2 * 10 ^ 2 * ((-1) * 1 * 1 * 1) * 1 / 1000 : ℚ)| = 3/50 ∧
    (-(3/50) : ℚ) ≠ 3/50 := by
  refine ⟨by unfold calculate_wind_pressure; norm_num, ?_, by norm_num⟩
  rw [show (0.5 * 1.2 * 10 ^ 2 * ((-1) * 1 * 1 * 1) * 1 / 1000 : ℚ) =
    -(3/50) by norm_num, abs_of_nonpos (by norm_num)]
  norm_num

/-- C2 witness: the amended theorem applied at `v = 10`, `cpe = -1`,
remaining factors `1`, with both hypotheses of the sign clause
discharged. -/
theorem c2_witness :
    calculate_wind_pressure 10 (-1) 1 1 1 1 =
      0.5 * 1.2 * 10 ^ 2 * ((-1) * 1 * 1 * 1) * 1 / 1000 ∧
    calculate_wind_pressure 10 (-1) 1 1 1 1 < 0 :=
  ⟨(c2_signed_pressure 10 (-1) 1 1 1 1).1,
    (c2_signed_pressure 10 (-1) 1 1 1 1).2 (by norm_num) (by norm_num)⟩

/-! ## Claim C3 -/

/-- C3 (amended): the governing coefficient is always `min c0 c90` (more
negative wins), but an exact tie `c0 = c90` selects direction 90, not
direction 0: the code's `if c0 < c90` comparison falls into the `else`
(wind-90) branch on equality. -/
theorem c3_governing_direction (c0 c90 : ℚ) :
    (governingCpe c0 c90).1 = min c0 c90 ∧
    (c0 = c90 → (governingCpe c0 c90).2 = WindDir.deg90) := by
  constructor
  · unfold governingCpe
    split
    · next h => exact (min_eq_left h.le).symm
    · next h => exact (min_eq_right (not_lt.mp h)).symm
  · intro he
    unfold governingCpe
    rw [if_neg (by rw [he]; exact lt_irrefl c90)]

/-- C3 (counterexample): on the exact tie `c0 = c90 = -0.7` the selected
governing direction is 90, not the claimed direction 0. -/
theorem c3_counterexample :
    (governingCpe (-0.7) (-0.7)).2 = WindDir.deg90 ∧
    WindDir.deg90 ≠ WindDir.deg0 := by
  constructor
  · unfold governingCpe
    rw [if_neg (lt_irrefl _)]
  · intro h
    cases h

/-- C3 witness: the amended theorem applied at the tie `c0 = c90 = -2`,
discharging the tie hypothesis. -/
theorem c3_witness :
    (governingCpe (-2) (-2)).1 = min (-2) (-2) ∧
    (governingCpe (-2) (-2)).2 = WindDir.deg90 :=
  ⟨(c3_governing_direction (-2) (-2)).1,
    (c3_governing_direction (-2) (-2)).2 rfl⟩

/-! ## Claims C7 and C8: the regional speed lookup -/

/-- Modelled from the spec's words for the amended claim: the resolved
speed is the value at the smallest tabulated return period `>=` the
request (conservative ceiling lookup), and the value at the largest
tabulated period when the request exceeds it. -/
def ceilingLookupSpeed (data : List (ℕ × ℚ)) (ret : ℕ) : ℚ :=
  match data.find? (fun p => decide (ret ≤ p.1)) with
  | some p => p.2
  | none => (data.getLast?.map Prod.snd).getD 0

/-- Modelled from the claim's words (`piecewise-linear interpolation over
the region's fixed table of (return period, speed) points`), used only
to exhibit the counterexample: linear interpolation between the
bracketing tabulated points, clamped at both ends. -/
def specLinearSpeed : List (ℕ × ℚ) → ℕ → ℚ
  | [], _ => 0
  | [(_, v1)], _ => v1
  | (y1, v1) :: (y2, v2) :: rest, r =>
    if r ≤ y1 then v1
    else if r ≤ y2 then
      v1 + (v2 - v1) * (((r : ℚ) - (y1 : ℚ)) / ((y2 : ℚ) - (y1 : ℚ)))
    else specLinearSpeed ((y2, v2) :: rest) r

lemma lookup_mem {α β : Type} [BEq α] [LawfulBEq α] (l : List (α × β))
    (k : α) (v : β) (h : l.lookup k = some v) : (k, v) ∈ l := by
  induction l with
  | nil => cases h
  | cons p t ih =>
      obtain ⟨pk, pv⟩ := p
      simp only [List.lookup] at h
      cases hbeq : (k == pk) with
      | true =>
          rw [hbeq] at h
          simp only [Option.some.injEq] at h
          have hk : k = pk := eq_of_beq hbeq
          subst hk
          subst h
          exact List.mem_cons_self _ _
      | false =>
          rw [hbeq] at h
          exact List.mem_cons_of_mem _ (ih h)

lemma find_eq_imp_find_le (data : List (ℕ × ℚ)) (ret : ℕ)
    (hs : data.Pairwise (fun p q => p.1 < q.1)) (p : ℕ × ℚ)
    (h : data.find? (fun q => q.1 == ret) = some p) :
    data.find? (fun q => decide (ret ≤ q.1)) = some p := by
  induction data with
  | nil => cases h
  | cons d t ih =>
      rw [List.pairwise_cons] at hs
      by_cases hd : d.1 = ret
      · rw [List.find?_cons_of_pos _ (by simp [hd])] at h
        have hp : p = d := (Option.some.inj h).symm
        subst hp
        exact List.find?_cons_of_pos _ (by simp [hd])
      · rw [List.find?_cons_of_neg _ (by simp [hd])] at h
        have hmem := List.mem_of_find?_eq_some h
        have hpr : p.1 = ret := by
          have hsat := List.find?_some h
          simpa using hsat
        have hdret : d.1 < ret := by
          have := hs.1 p hmem
          omega
        rw [List.find?_cons_of_neg _ (by simp; omega)]
        exact ih hs.2 h

lemma vrFromTable_eq_ceiling (data : List (ℕ × ℚ)) (ret : ℕ)
    (hs : data.Pairwise (fun p q => p.1 < q.1)) :
    vrFromTable data ret = ceilingLookupSpeed data ret := by
  cases hfind : data.find? (fun q => q.1 == ret) with
  | none => simp only [vrFromTable, ceilingLookupSpeed, hfind]
  | some p =>
      simp only [vrFromTable, ceilingLookupSpeed, hfind,
        find_eq_imp_find_le data ret hs p hfind]

lemma wind_tables_sorted :
    ∀ p ∈ WIND_DATA, p.2.Pairwise (fun a b => a.1 < b.1) := by
  decide

/-- C7 (amended): for every region present in `WIND_DATA` the resolved
speed is a conservative ceiling lookup — the speed at the smallest
tabulated return period `>=` the requested one — not a piecewise-linear
interpolation; beyond the largest tabulated period the speed at that
largest period is returned (that part of the claim holds). -/
theorem c7_ceiling_lookup (region : String) (data : List (ℕ × ℚ))
    (ret : ℕ) (h : WIND_DATA.lookup region = some data) :
    get_vr_from_ari region ret = ceilingLookupSpeed data ret := by
  have hmem := lookup_mem WIND_DATA region data h
  have hs := wind_tables_sorted (region, data) hmem
  unfold get_vr_from_ari
  rw [h]
  exact vrFromTable_eq_ceiling data ret hs

/-- C7 (counterexample): for region `A1` and return period `300` years
the code returns `45` (the speed at the next tabulated period, `500`),
whereas piecewise-linear interpolation between `(250, 43)` and
`(500, 45)` gives `43.4 = 217/5`. -/
theorem c7_counterexample :
    get_vr_from_ari "A1" 300 = 45 ∧
    specLinearSpeed rowA 300 = 217/5 ∧
    (45 : ℚ) ≠ 217/5 := by
  refine ⟨by decide, ?_, by norm_num⟩
  norm_num [specLinearSpeed, rowA]

/-- C7 witness: the amended ceiling-lookup theorem applied to region
`A1` at return period `300`. -/
theorem c7_witness :
    get_vr_from_ari "A1" 300 = ceilingLookupSpeed rowA 300 :=
  c7_ceiling_lookup "A1" rowA 300 (by decide)

/-- C8 (amended): an unknown region does not fail with any error — the
lookup silently returns the hard-coded default speed `45.0` m/s before
any table access (there is no `ConfigurationError` anywhere in the
code). -/
theorem c8_unknown_region_default (region : String) (ret : ℕ)
    (h : WIND_DATA.lookup region = none) :
    get_vr_from_ari region ret = 45 := by
  unfold get_vr_from_ari
  rw [h]

/-- C8 (counterexample): the unknown region `"ZZZ"` is not in the table,
yet resolving it returns the default `45.0` m/s instead of failing. -/
theorem c8_counterexample :
    WIND_DATA.lookup "ZZZ" = none ∧ get_vr_from_ari "ZZZ" 500 = 45 := by
  exact ⟨by decide, by decide⟩

/-- C8 witness: the amended default theorem applied to region `"ZZZ"`
at return period `500`. -/
theorem c8_witness : get_vr_from_ari "ZZZ" 500 = 45 :=
  c8_unknown_region_default "ZZZ" 500 (by decide)

end RailSpacing
